import Mathlib

/-
Verification development for the MetaMask Angular service
(src/src/app/metamask/metamask.service.ts, reactive variant, and the
legacy variant in src/unnamed/part_000).

The embedding is shallow: the service's session state (account, network,
isAuthenticated) is a record, the asynchronous collaborators (wallet
extension, backend verifier) are oracles supplied through an environment
record, and each operation is a pure function from environment and state
to a result, a successor state and the list of external calls it
performed.  Machine arithmetic on amounts is Nat (wei values are
unbounded integers in ethers' BigNumber as well).
-/

/- ---------------------------------------------------------------------
Decimal strings: value and digits.

The transaction path of metamask.service.ts line 226 calls
`ethers.utils.parseEther(amountETH)`, i.e. ethers v5 `parseUnits` with 18
decimals.  The definitions below model that library routine faithfully:
the string is split on ".", it must be nonempty, consist of digits and
dots only, have at most two components, and the fractional component may
have at most 18 digits; the result is whole * 10^18 plus the fraction
scaled to 18 places.  `formatEther` models the inverse rendering used by
ethers (`formatUnits` with 18 decimals): whole part, a dot, then the
18-digit zero-padded fraction with trailing zeros trimmed down to at
least one digit.
--------------------------------------------------------------------- -/

/-- Numeric value of a decimal digit character ('0' ↦ 0, …, '9' ↦ 9). -/
def charVal (c : Char) : Nat := c.toNat - 48

/-- Value of a big-endian list of decimal digit characters. -/
def decVal (l : List Char) : Nat := l.foldl (fun n c => n * 10 + charVal c) 0

/-- Value of a little-endian (least significant first) digit list. -/
def valLE : List Char → Nat
  | [] => 0
  | c :: cs => charVal c + 10 * valLE cs

/-- Little-endian decimal digit characters of a natural number
(empty for 0). -/
def decDigitsLE : Nat → List Char
  | 0 => []
  | n + 1 => Nat.digitChar ((n + 1) % 10) :: decDigitsLE ((n + 1) / 10)
termination_by n => n
decreasing_by
  simp_wf
  exact Nat.div_lt_self (Nat.succ_pos _) (by norm_num)

/-- Big-endian decimal rendering of a natural number ("0" for 0),
as ethers' BigNumber.toString produces. -/
def natChars (n : Nat) : List Char :=
  if n = 0 then ['0'] else (decDigitsLE n).reverse

/-- Split a character list on a separator character; mirrors
JavaScript's `value.split(".")` used by ethers parseUnits. -/
def splitOnChar (sep : Char) : List Char → List (List Char)
  | [] => [[]]
  | c :: cs =>
    if c = sep then [] :: splitOnChar sep cs
    else
      match splitOnChar sep cs with
      | [] => [[c]]
      | h :: t => (c :: h) :: t

/-- Model of `ethers.utils.parseEther` (ethers v5 parseFixed with 18
decimals), the conversion used by requestSendTransaction
(metamask.service.ts line 226): exact scaled-integer conversion of a
decimal string to wei; none models the library throwing on a malformed
string or on more than 18 fractional digits. -/
def parseEther (s : String) : Option Nat :=
  let cs := s.data
  if cs = [] then none
  else if ¬ (cs.all fun c => c.isDigit || c == '.') then none
  else
    match splitOnChar '.' cs with
    | [w] => some (decVal w * 10 ^ 18)
    | [w, f] =>
      if f.length ≤ 18 then some (decVal w * 10 ^ 18 + decVal f * 10 ^ (18 - f.length))
      else none
    | _ => none

/-- The 18-digit fraction block of a wei remainder r < 10^18 with its
trailing zeros trimmed, in big-endian character order; at least one
digit is kept, as in ethers formatFixed. -/
def fracChars (r : Nat) : List Char :=
  let u := (decDigitsLE r ++ List.replicate (18 - (decDigitsLE r).length) '0').dropWhile
    (fun c => c = '0')
  if u = [] then ['0'] else u.reverse

/-- Modelled from the spec: the display-unit rendering of an integer wei
amount used in the round-trip property ("converting the resulting
integer back to a display-unit decimal string").  No back-conversion
appears under src/; this follows the spec's example ("1.5" ↔
1500000000000000000) and the ethers v5 formatEther contract the spec's
conversion is defined by: whole part, a dot, then the fraction padded to
18 digits with trailing zeros trimmed, keeping at least one digit. -/
def formatEther (n : Nat) : String :=
  String.mk (natChars (n / 10 ^ 18) ++ '.' :: fracChars (n % 10 ^ 18))

/-- Modelled from the spec: the mathematical value of a decimal string
("the mathematical value of the string"), as an exact rational: integer
part plus fractional digits over 10^(number of fractional digits).
Spec-side definition, used only to compare against parseEther. -/
def specDecimalValue (s : String) : Option ℚ :=
  let cs := s.data
  if cs = [] then none
  else if ¬ (cs.all fun c => c.isDigit || c == '.') then none
  else
    match splitOnChar '.' cs with
    | [w] => some (decVal w : ℚ)
    | [w, f] => some ((decVal w : ℚ) + (decVal f : ℚ) / 10 ^ f.length)
    | _ => none

/-- Number of fractional digits of a decimal string (0 when there is no
dot). -/
def fracDigitCount (s : String) : Nat :=
  match splitOnChar '.' s.data with
  | [_, f] => f.length
  | _ => 0

/- ---------------------------------------------------------------------
Session state and external calls.
--------------------------------------------------------------------- -/

/-- A network as ethers reports it: chain id plus human name
(`ethers.providers.Network`).  Chain id 1 is Ethereum mainnet, the
production chain. -/
structure Network where
  chainId : Nat
  name : String
deriving DecidableEq, Repr

/-- The mutable session state of MetaMaskService: `_account`,
`_network`, `_isAuthenticated` (metamask.service.ts lines 22-33).  The
BehaviorSubject streams replay these same values, so the state record is
the whole observable state. -/
structure MMState where
  account : Option String
  network : Option Network
  isAuthenticated : Bool
deriving DecidableEq, Repr

/-- `isConnected` getter (metamask.service.ts line 73): the account is
neither undefined nor null. -/
def isConnected (s : MMState) : Bool := s.account.isSome

/-- One externally observable call to the wallet extension or the
backend, recorded in the order the operations perform them. -/
inductive ExternalCall where
  | walletGetSigner
  | walletSignMessage (message : String)
  | walletGetAddress
  | walletSendTx (toAddr : String) (valueWei : Nat)
  | backendGenerateNonce
  | backendVerify (message address signature : String)
  | legacySendTx (fromAddr toAddr valueHex : String)
deriving DecidableEq, Repr

/- ---------------------------------------------------------------------
Event handlers (metamask.service.ts lines 117-134).
--------------------------------------------------------------------- -/

/-- `onAccountsChanged` (metamask.service.ts lines 117-129): an empty
(or missing) account list clears the account, otherwise the first entry
becomes the account (a length > 1 list only logs a console warning);
in every case `isAuthenticated` is then set to false. -/
def onAccountsChanged (accounts : List String) (s : MMState) : MMState :=
  let s1 :=
    if accounts.isEmpty then { s with account := none }
    else { s with account := accounts.head? }
  { s1 with isAuthenticated := false }

/-- `onChainChanged` (metamask.service.ts lines 131-134): the handler
ignores the chainId payload of the event and re-queries
`provider.getNetwork()`; `queried` is the network that query resolves
with, and it becomes the new network.  Nothing else is written. -/
def onChainChanged (queried : Network) (s : MMState) : MMState :=
  { s with network := some queried }

/- ---------------------------------------------------------------------
Login flow (metamask.service.ts lines 171-203) and logout (205-207).
--------------------------------------------------------------------- -/

/-- Oracle results of the collaborators the login flow awaits, in
program order.  `requestAccountResult` is `eth_requestAccounts` inside
getSigner (reject = error).  `signerPresent` is whether
`provider?.getSigner()` yielded a signer (false when no provider is
installed, in which case `signer?.signMessage` short-circuits to
undefined without a wallet call).  `generateNonceResult` is the
GET /metamask/generatenonce response: error = HTTP failure, `ok none` =
a body whose `nonce` field is absent.  `verifyResult` is the
GET /metamask/verify/message response: `ok v` carries the optional
`valid` field. -/
structure LoginEnv where
  requestAccountResult : Except String Unit
  signerPresent : Bool
  generateNonceResult : Except String (Option String)
  signMessageResult : Except String String
  getAddressResult : Except String (Option String)
  verifyResult : Except String (Option Bool)

/-- Result of a requestLogin run: the settled promise (error = the
rejection's message, ok = the returned `this.account`), the session
state when the promise settles, and the external calls performed. -/
structure LoginOutcome where
  result : Except String (Option String)
  state : MMState
  calls : List ExternalCall

/-- `requestLogin` (metamask.service.ts lines 171-203).  It first writes
`isAuthenticated = false`, then awaits getSigner (wallet),
generateNonce (backend), signMessage (wallet), getAddress (wallet) and
verifyMessage (backend) in order; each control-flow branch of the
source is reproduced, including the explicit undefined checks that
throw "Could not generate nonce!", "Could not sign message!",
"Could not get address!" and "Signature invalid".  A collaborator
rejection settles the promise with that same error. -/
def requestLogin (env : LoginEnv) (s : MMState) : LoginOutcome :=
  let s1 : MMState := { s with isAuthenticated := false }
  match env.requestAccountResult with
  | .error e => ⟨.error e, s1, [.walletGetSigner]⟩
  | .ok _ =>
    match env.generateNonceResult with
    | .error e => ⟨.error e, s1, [.walletGetSigner, .backendGenerateNonce]⟩
    | .ok none =>
      ⟨.error "Could not generate nonce!", s1, [.walletGetSigner, .backendGenerateNonce]⟩
    | .ok (some nonce) =>
      if env.signerPresent = false then
        ⟨.error "Could not sign message!", s1, [.walletGetSigner, .backendGenerateNonce]⟩
      else
        match env.signMessageResult with
        | .error e =>
          ⟨.error e, s1,
            [.walletGetSigner, .backendGenerateNonce, .walletSignMessage nonce]⟩
        | .ok signature =>
          match env.getAddressResult with
          | .error e =>
            ⟨.error e, s1,
              [.walletGetSigner, .backendGenerateNonce, .walletSignMessage nonce,
                .walletGetAddress]⟩
          | .ok none =>
            ⟨.error "Could not get address!", s1,
              [.walletGetSigner, .backendGenerateNonce, .walletSignMessage nonce,
                .walletGetAddress]⟩
          | .ok (some address) =>
            match env.verifyResult with
            | .error e =>
              ⟨.error e, s1,
                [.walletGetSigner, .backendGenerateNonce, .walletSignMessage nonce,
                  .walletGetAddress, .backendVerify nonce address signature]⟩
            | .ok v =>
              if v = some true then
                ⟨.ok s1.account, { s1 with isAuthenticated := true },
                  [.walletGetSigner, .backendGenerateNonce, .walletSignMessage nonce,
                    .walletGetAddress, .backendVerify nonce address signature]⟩
              else
                ⟨.error "Signature invalid", s1,
                  [.walletGetSigner, .backendGenerateNonce, .walletSignMessage nonce,
                    .walletGetAddress, .backendVerify nonce address signature]⟩

/-- `logout` (metamask.service.ts lines 205-207): synchronously set
`isAuthenticated = false`; the returned list of external calls is the
(empty) set of wallet/backend calls it performs.  Being a total Lean
function, it settles on every input: it cannot reject. -/
def logout (s : MMState) : MMState × List ExternalCall :=
  ({ s with isAuthenticated := false }, [])

/- ---------------------------------------------------------------------
Transaction submission (metamask.service.ts lines 209-244).
--------------------------------------------------------------------- -/

/-- Oracle results for requestSendTransaction's collaborators:
`eth_requestAccounts` inside getSigner, whether a signer was obtained,
and the wallet's `sendTransaction` response (error = rejection,
ok = the transaction response whose hash is returned). -/
structure TxEnv where
  requestAccountResult : Except String Unit
  signerPresent : Bool
  sendTransactionResult : Except String String

/-- Result of a requestSendTransaction run: the settled promise and the
wallet calls performed.  (The function never writes session state.) -/
structure TxOutcome where
  result : Except String String
  calls : List ExternalCall

/-- `requestSendTransaction` (metamask.service.ts lines 209-234): read
`this.network?.chainId`; if `isProd` and it differs from 1 throw
"Network should be Ethereum mainnet"; if not `isProd` and it equals 1
throw "Network should be a testnet"; both throws happen before
getSigner, so no wallet call is made.  Otherwise getSigner runs (a
wallet call); `signer?.sendTransaction({...})` short-circuits to
undefined without evaluating `parseEther` when no signer exists, which
the source turns into "Could not send transaction"; a malformed amount
makes parseEther throw inside the library ("invalid decimal value");
otherwise the wallet send is performed with the exact wei value. -/
def requestSendTransaction (env : TxEnv) (isProd : Bool) (toAdress amountETH : String)
    (s : MMState) : TxOutcome :=
  let networkVersion := s.network.map Network.chainId
  if isProd ∧ networkVersion ≠ some 1 then
    ⟨.error "Network should be Ethereum mainnet", []⟩
  else if ¬ isProd ∧ networkVersion = some 1 then
    ⟨.error "Network should be a testnet", []⟩
  else
    match env.requestAccountResult with
    | .error e => ⟨.error e, [.walletGetSigner]⟩
    | .ok _ =>
      if env.signerPresent = false then
        ⟨.error "Could not send transaction", [.walletGetSigner]⟩
      else
        match parseEther amountETH with
        | none => ⟨.error "invalid decimal value", [.walletGetSigner]⟩
        | some valueWei =>
          match env.sendTransactionResult with
          | .error e => ⟨.error e, [.walletGetSigner, .walletSendTx toAdress valueWei]⟩
          | .ok hash => ⟨.ok hash, [.walletGetSigner, .walletSendTx toAdress valueWei]⟩

/-- Receipt record returned by the provider's getTransactionReceipt;
never constructed by the functions below, so its fields are irrelevant
to the claims. -/
structure TransactionReceipt where
  txHash : String
deriving DecidableEq, Repr

/-- `checkTransactionConfirmationFromBackend` (metamask.service.ts
lines 241-244, identical in src/unnamed/part_000 lines 185-188):
`const receipt = null; return receipt;` -- a constant function. -/
def checkTransactionConfirmationFromBackend (_txhash : String) : Option TransactionReceipt :=
  none

/- ---------------------------------------------------------------------
Legacy variant (src/unnamed/part_000).
--------------------------------------------------------------------- -/

namespace Legacy

/-- Oracle results for the legacy signMessage's awaits:
`eth_requestAccounts`, `signer.signMessage`, `signer.getAddress`. -/
structure SignEnv where
  requestAccountsResult : Except String Unit
  signResult : Except String String
  getAddressResult : Except String String

/-- Legacy `signMessage` (src/unnamed/part_000 lines 115-128): the whole
body sits in a try/catch whose catch logs "Unable to sign" and returns
null, so every collaborator rejection yields `none` and no error ever
reaches the caller; success yields the (signature, address) pair. -/
def signMessage (env : SignEnv) (_message : String) : Option (String × String) :=
  match env.requestAccountsResult with
  | .error _ => none
  | .ok _ =>
    match env.signResult with
    | .error _ => none
    | .ok signature =>
      match env.getAddressResult with
      | .error _ => none
      | .ok address => some (signature, address)

/-- Legacy `sendTransaction` (src/unnamed/part_000 lines 141-178):
reads `window.ethereum.networkVersion`, raises the same two
wrong-network errors before any wallet call, then computes the wei hex
string and performs one `eth_sendTransaction` request.  All of it is in
a try/catch whose catch logs "Unable to send transaction" and falls off
the end, so the promise resolves with undefined (`none`) on every
failure, including the wrong-network throws.  `amountWEIHex` stands for
the source's `(amountETH * 10**18).toString(16)`: that conversion is
binary floating-point arithmetic, whose inexactness is recorded with
claim C3; the guard and the call trace do not depend on it. -/
def sendTransaction (networkVersion : Nat) (env : Except String String) (isProd : Bool)
    (fromAddress toAdress amountWEIHex : String) : Option String × List ExternalCall :=
  if isProd ∧ networkVersion ≠ 1 then (none, [])
  else if ¬ isProd ∧ networkVersion = 1 then (none, [])
  else
    match env with
    | .error _ => (none, [.legacySendTx fromAddress toAdress amountWEIHex])
    | .ok txHash => (some txHash, [.legacySendTx fromAddress toAdress amountWEIHex])

end Legacy

/-- Whether an Except settled successfully. -/
def exceptOk {ε α : Type} : Except ε α → Bool
  | .ok _ => true
  | .error _ => false

/- ---------------------------------------------------------------------
Claims about the event handlers and logout.
--------------------------------------------------------------------- -/

/-- Claim C1: after any accountsChanged event the account is the head of
the new list (none when the list is empty, so isConnected is false),
and isAuthenticated is false in the same update. -/
theorem onAccountsChanged_account_and_auth (accounts : List String) (s : MMState) :
    (onAccountsChanged accounts s).isAuthenticated = false ∧
    (onAccountsChanged accounts s).account = accounts.head? ∧
    isConnected (onAccountsChanged [] s) = false := by
  refine ⟨rfl, ?_, rfl⟩
  cases accounts <;> simp [onAccountsChanged]

/-- Claim C8: a chainChanged event updates the network to the freshly
queried one and changes neither the account nor isAuthenticated. -/
theorem onChainChanged_frame (queried : Network) (s : MMState) :
    (onChainChanged queried s).network = some queried ∧
    (onChainChanged queried s).account = s.account ∧
    (onChainChanged queried s).isAuthenticated = s.isAuthenticated :=
  ⟨rfl, rfl, rfl⟩

/-- Claim C7: logout always succeeds (it is a total function),
synchronously sets isAuthenticated to false, performs no wallet or
backend call, and leaves account and network untouched. -/
theorem logout_total_and_frame (s : MMState) :
    (logout s).1.isAuthenticated = false ∧
    (logout s).1.account = s.account ∧
    (logout s).1.network = s.network ∧
    (logout s).2 = [] :=
  ⟨rfl, rfl, rfl, rfl⟩

/-- Claim C10: the backend-based confirmation check is the constant
none (null) function: it reports "no receipt" for every hash. -/
theorem checkTransactionConfirmationFromBackend_always_none (txhash : String) :
    checkTransactionConfirmationFromBackend txhash = none := rfl

/- ---------------------------------------------------------------------
Claims about the login flow.
--------------------------------------------------------------------- -/

/-- Claim C6: requestLogin resets isAuthenticated to false before any
other step (its outcome is the same as from the already-reset state),
and when the settled promise is a rejection the final isAuthenticated
is false: the flag ends up true exactly when the whole handshake
succeeded. -/
theorem requestLogin_resets_and_gates_auth (env : LoginEnv) (s : MMState) :
    (requestLogin env s).state.isAuthenticated = exceptOk (requestLogin env s).result ∧
    requestLogin env s = requestLogin env { s with isAuthenticated := false } := by
  refine ⟨?_, rfl⟩
  obtain ⟨ra, sp, gn, sm, ga, vr⟩ := env
  rcases ra with e | u <;> rcases gn with e | o <;> try rcases o with _ | nonce
  all_goals cases sp
  all_goals rcases sm with e | sig
  all_goals rcases ga with e | a <;> try rcases a with _ | addr
  all_goals rcases vr with e | v
  all_goals simp [requestLogin, exceptOk]
  all_goals rcases v with _ | b
  all_goals simp [exceptOk]
  all_goals cases b <;> simp [exceptOk]

/-- Claim C5: in the verification step, a response whose valid field is
true authenticates the session and resolves with the current account;
any other verify response (valid absent or false) rejects with
"Signature invalid" and leaves isAuthenticated false. -/
theorem requestLogin_verify_step (env : LoginEnv) (s : MMState)
    (nonce signature addr : String) (v : Option Bool)
    (hra : env.requestAccountResult = .ok ())
    (hsp : env.signerPresent = true)
    (hgn : env.generateNonceResult = .ok (some nonce))
    (hsm : env.signMessageResult = .ok signature)
    (hga : env.getAddressResult = .ok (some addr))
    (hvr : env.verifyResult = .ok v) :
    (v = some true →
      (requestLogin env s).result = .ok s.account ∧
      (requestLogin env s).state.isAuthenticated = true) ∧
    (v ≠ some true →
      (requestLogin env s).result = .error "Signature invalid" ∧
      (requestLogin env s).state.isAuthenticated = false) := by
  obtain ⟨ra, sp, gn, sm, ga, vr⟩ := env
  simp only at hra hsp hgn hsm hga hvr
  subst hra hsp hgn hsm hga hvr
  constructor
  · intro hv
    subst hv
    exact ⟨rfl, rfl⟩
  · intro hv
    simp [requestLogin, hv]

/-- Witness for requestLogin_verify_step: the full happy-path login of
the spec (nonce "abc123", a signature, valid = true) resolves with the
current account and authenticates the session. -/
theorem requestLogin_verify_step_witness :
    (requestLogin
        ⟨.ok (), true, .ok (some "abc123"), .ok "0xsig", .ok (some "0xaddr"),
          .ok (some true)⟩
        ⟨some "0xaddr", none, false⟩).result = .ok (some "0xaddr") ∧
    (requestLogin
        ⟨.ok (), true, .ok (some "abc123"), .ok "0xsig", .ok (some "0xaddr"),
          .ok (some true)⟩
        ⟨some "0xaddr", none, false⟩).state.isAuthenticated = true :=
  (requestLogin_verify_step _ _ "abc123" "0xsig" "0xaddr" (some true)
    rfl rfl rfl rfl rfl rfl).1 rfl

/- ---------------------------------------------------------------------
Claims about transaction submission and error propagation.
--------------------------------------------------------------------- -/

/-- Counterexample to claim C2 as stated: in the legacy variant's
sendTransaction (src/unnamed/part_000), a production-intent call on
chain 3 resolves with undefined (none) -- the internal wrong-network
throw is caught and logged, so no WrongNetwork error reaches the
caller (the result type shows the promise can never reject).  No
wallet call is performed, but the operation does not fail. -/
theorem legacy_sendTransaction_wrongNetwork_resolves_undefined :
    Legacy.sendTransaction 3 (.ok "0xhash") true "0xfrom" "0xto" "de0b6b3a7640000" =
      (none, []) := by
  simp [Legacy.sendTransaction]

/-- Claim C2, amended: requestSendTransaction (the reactive variant)
behaves exactly as claimed -- a production-intent call off chain id 1
rejects with "Network should be Ethereum mainnet", a test-intent call
on chain id 1 rejects with "Network should be a testnet", and in both
cases no wallet call (signer acquisition or send) is performed; the
legacy variant raises the same two errors internally before any wallet
call, but its catch-all handler swallows them, so that call resolves
with undefined instead of failing. -/
theorem sendTransaction_network_guard (env : TxEnv) (sOff sOn : MMState)
    (toAdress amountETH fromAddress amountWEIHex : String)
    (legacyEnv : Except String String) (nOff nOn : Nat)
    (hOff : sOff.network.map Network.chainId ≠ some 1)
    (hOn : sOn.network.map Network.chainId = some 1)
    (hnOff : nOff ≠ 1) (hnOn : nOn = 1) :
    requestSendTransaction env true toAdress amountETH sOff =
      ⟨.error "Network should be Ethereum mainnet", []⟩ ∧
    requestSendTransaction env false toAdress amountETH sOn =
      ⟨.error "Network should be a testnet", []⟩ ∧
    Legacy.sendTransaction nOff legacyEnv true fromAddress toAdress amountWEIHex =
      (none, []) ∧
    Legacy.sendTransaction nOn legacyEnv false fromAddress toAdress amountWEIHex =
      (none, []) := by
  refine ⟨?_, ?_, ?_, ?_⟩
  · simp [requestSendTransaction, hOff]
  · simp [requestSendTransaction, hOn]
  · simp [Legacy.sendTransaction, hnOff]
  · simp [Legacy.sendTransaction, hnOn]

/-- Witness for sendTransaction_network_guard: chain 3 (a testnet) with
production intent and chain 1 (mainnet) with test intent. -/
theorem sendTransaction_network_guard_witness :
    requestSendTransaction ⟨.ok (), true, .ok "0xh"⟩ true "0xto" "1.5"
        ⟨some "0xme", some ⟨3, "ropsten"⟩, false⟩ =
      ⟨.error "Network should be Ethereum mainnet", []⟩ ∧
    requestSendTransaction ⟨.ok (), true, .ok "0xh"⟩ false "0xto" "1.5"
        ⟨some "0xme", some ⟨1, "homestead"⟩, false⟩ =
      ⟨.error "Network should be a testnet", []⟩ ∧
    Legacy.sendTransaction 3 (.ok "0xh") true "0xme" "0xto" "de0b6b3a7640000" =
      (none, []) ∧
    Legacy.sendTransaction 1 (.ok "0xh") false "0xme" "0xto" "de0b6b3a7640000" =
      (none, []) :=
  sendTransaction_network_guard ⟨.ok (), true, .ok "0xh"⟩
    ⟨some "0xme", some ⟨3, "ropsten"⟩, false⟩ ⟨some "0xme", some ⟨1, "homestead"⟩, false⟩
    "0xto" "1.5" "0xme" "de0b6b3a7640000" (.ok "0xh") 3 1
    (by decide) (by decide) (by decide) (by decide)

/-- Counterexample to claim C9 as stated: in the legacy variant's
signMessage (src/unnamed/part_000 lines 115-128), a wallet rejection of
the signature prompt is caught, logged, and turned into a resolved
null -- the error is swallowed, not propagated as a typed failure. -/
theorem legacy_signMessage_swallows_rejection :
    Legacy.signMessage ⟨.ok (), .error "User rejected signing", .ok "0xaddr"⟩ "abc123" =
      none := rfl

/-- Claim C9, amended: in the reactive variant, every wallet or backend
rejection during requestLogin or requestSendTransaction propagates
verbatim as the operation's own rejection, and each collaborator is
called exactly once on the way there (no retry, as the recorded call
trace shows); the legacy variant's signMessage and sendTransaction,
however, catch every collaborator error, log it, and resolve with
null/undefined. -/
theorem collaborator_error_propagation (s : MMState) (e : String) (sp : Bool)
    (gn : Except String (Option String)) (sm : Except String String)
    (ga : Except String (Option String)) (vr : Except String (Option Bool))
    (nonce sig addr : String) (env2 : Except String String)
    (acct : Option String) (nm toAdress fromAddress hx : String) (auth : Bool)
    (ga2 : Except String String) (msg : String) :
    (requestLogin ⟨.error e, sp, gn, sm, ga, vr⟩ s).result = .error e ∧
    (requestLogin ⟨.ok (), sp, .error e, sm, ga, vr⟩ s).result = .error e ∧
    (requestLogin ⟨.ok (), true, .ok (some nonce), .error e, ga, vr⟩ s).result = .error e ∧
    (requestLogin ⟨.ok (), true, .ok (some nonce), .ok sig, .error e, vr⟩ s).result =
      .error e ∧
    (requestLogin ⟨.ok (), true, .ok (some nonce), .ok sig, .ok (some addr), .error e⟩
        s).result = .error e ∧
    (requestLogin ⟨.ok (), true, .ok (some nonce), .ok sig, .ok (some addr), .error e⟩
        s).calls =
      [.walletGetSigner, .backendGenerateNonce, .walletSignMessage nonce,
        .walletGetAddress, .backendVerify nonce addr sig] ∧
    requestSendTransaction ⟨.error e, sp, env2⟩ true toAdress "1.5"
        ⟨acct, some ⟨1, nm⟩, auth⟩ =
      ⟨.error e, [.walletGetSigner]⟩ ∧
    requestSendTransaction ⟨.ok (), true, .error e⟩ true toAdress "1.5"
        ⟨acct, some ⟨1, nm⟩, auth⟩ =
      ⟨.error e, [.walletGetSigner, .walletSendTx toAdress 1500000000000000000]⟩ ∧
    Legacy.signMessage ⟨.ok (), .error e, ga2⟩ msg = none ∧
    Legacy.sendTransaction 3 (.error e) false fromAddress toAdress hx =
      (none, [.legacySendTx fromAddress toAdress hx]) := by
  refine ⟨rfl, rfl, rfl, rfl, rfl, rfl, ?_, ?_, rfl, ?_⟩
  · simp [requestSendTransaction]
  · simp [requestSendTransaction]
    rfl
  · simp [Legacy.sendTransaction]

/- ---------------------------------------------------------------------
Arithmetic of decimal digit lists, towards claims C3 and C4.
--------------------------------------------------------------------- -/

theorem charVal_digitChar {d : Nat} (h : d < 10) : charVal (Nat.digitChar d) = d := by
  interval_cases d <;> rfl

theorem digitChar_isDigit {d : Nat} (h : d < 10) : (Nat.digitChar d).isDigit = true := by
  interval_cases d <;> rfl

theorem decVal_append (l : List Char) (c : Char) :
    decVal (l ++ [c]) = decVal l * 10 + charVal c := by
  simp [decVal, List.foldl_append]

theorem decVal_reverse (l : List Char) : decVal l.reverse = valLE l := by
  induction l with
  | nil => rfl
  | cons c cs ih =>
    rw [List.reverse_cons, decVal_append, ih, valLE]
    omega

theorem valLE_decDigitsLE (n : Nat) : valLE (decDigitsLE n) = n := by
  induction n using Nat.strong_induction_on with
  | _ n ih =>
    match n with
    | 0 => simp [decDigitsLE, valLE]
    | m + 1 =>
      rw [decDigitsLE, valLE, ih ((m + 1) / 10) (Nat.div_lt_self (Nat.succ_pos m) (by omega)),
        charVal_digitChar (Nat.mod_lt _ (by omega))]
      omega

theorem length_decDigitsLE_le (n : Nat) :
    ∀ k : Nat, n < 10 ^ k → (decDigitsLE n).length ≤ k := by
  induction n using Nat.strong_induction_on with
  | _ n ih =>
    intro k hk
    match n with
    | 0 => simp [decDigitsLE]
    | m + 1 =>
      match k with
      | 0 => omega
      | j + 1 =>
        rw [decDigitsLE, List.length_cons]
        have hdiv : (m + 1) / 10 < 10 ^ j := by
          rw [Nat.div_lt_iff_lt_mul (by omega)]
          calc m + 1 < 10 ^ (j + 1) := hk
            _ = 10 ^ j * 10 := by ring
        have := ih ((m + 1) / 10) (Nat.div_lt_self (Nat.succ_pos m) (by omega)) j hdiv
        omega

theorem isDigit_of_mem_decDigitsLE {n : Nat} {c : Char} (h : c ∈ decDigitsLE n) :
    c.isDigit = true := by
  induction n using Nat.strong_induction_on with
  | _ n ih =>
    match n with
    | 0 => simp [decDigitsLE] at h
    | m + 1 =>
      rw [decDigitsLE, List.mem_cons] at h
      rcases h with h | h
      · rw [h]; exact digitChar_isDigit (Nat.mod_lt _ (by omega))
      · exact ih ((m + 1) / 10) (Nat.div_lt_self (Nat.succ_pos m) (by omega)) h

theorem valLE_replicate_zero (k : Nat) : valLE (List.replicate k '0') = 0 := by
  induction k with
  | zero => rfl
  | succ j ih => rw [List.replicate_succ, valLE, ih]; decide

theorem valLE_append_replicate_zero (l : List Char) (k : Nat) :
    valLE (l ++ List.replicate k '0') = valLE l := by
  induction l with
  | nil => simpa using valLE_replicate_zero k
  | cons c cs ih => rw [List.cons_append, valLE, valLE, ih]

theorem length_dropWhile_zero_le (l : List Char) :
    (l.dropWhile (fun c => c = '0')).length ≤ l.length := by
  induction l with
  | nil => simp
  | cons c cs ih =>
    rw [List.dropWhile_cons]
    split
    · simp; omega
    · simp

theorem valLE_dropWhile_zero (l : List Char) :
    valLE l =
      valLE (l.dropWhile (fun c => c = '0')) *
        10 ^ (l.length - (l.dropWhile (fun c => c = '0')).length) := by
  induction l with
  | nil => rfl
  | cons c cs ih =>
    rw [List.dropWhile_cons]
    split
    · rename_i hc
      simp only [decide_eq_true_eq] at hc
      subst hc
      have hle := length_dropWhile_zero_le cs
      have hlen : ('0' :: cs).length - (cs.dropWhile (fun c => c = '0')).length =
          (cs.length - (cs.dropWhile (fun c => c = '0')).length) + 1 := by
        rw [List.length_cons]; omega
      rw [valLE, hlen, pow_succ, ih]
      have h0 : charVal '0' = 0 := rfl
      rw [h0]
      ring
    · simp

theorem isDigit_of_mem_dropWhile_zero {l : List Char} {c : Char}
    (hl : ∀ x ∈ l, x.isDigit = true) (h : c ∈ l.dropWhile (fun c => c = '0')) :
    c.isDigit = true := by
  induction l with
  | nil => simp at h
  | cons a as ih =>
    rw [List.dropWhile_cons] at h
    split at h
    · exact ih (fun x hx => hl x (List.mem_cons_of_mem a hx)) h
    · rcases List.mem_cons.mp h with h | h
      · exact h ▸ hl a (List.mem_cons_self a as)
      · exact hl c (List.mem_cons_of_mem a h)

/- ---------------------------------------------------------------------
Splitting on the decimal dot.
--------------------------------------------------------------------- -/

theorem splitOnChar_of_not_mem {sep : Char} {l : List Char} (h : sep ∉ l) :
    splitOnChar sep l = [l] := by
  induction l with
  | nil => rfl
  | cons c cs ih =>
    simp only [List.mem_cons, not_or] at h
    rw [splitOnChar, if_neg (fun hc => h.1 hc.symm), ih h.2]

theorem splitOnChar_append {sep : Char} {a : List Char} (b : List Char) (ha : sep ∉ a) :
    splitOnChar sep (a ++ sep :: b) = a :: splitOnChar sep b := by
  induction a with
  | nil => simp [splitOnChar]
  | cons c cs ih =>
    simp only [List.mem_cons, not_or] at ha
    rw [List.cons_append, splitOnChar, if_neg (fun hc => ha.1 hc.symm), ih ha.2]

theorem splitOnChar_dot_pair {a b : List Char} (ha : '.' ∉ a) (hb : '.' ∉ b) :
    splitOnChar '.' (a ++ '.' :: b) = [a, b] := by
  rw [splitOnChar_append b ha, splitOnChar_of_not_mem hb]

/- ---------------------------------------------------------------------
The rendered pieces parse back to their values.
--------------------------------------------------------------------- -/

theorem decDigitsLE_ne_nil {n : Nat} (h : n ≠ 0) : decDigitsLE n ≠ [] := by
  match n with
  | 0 => exact absurd rfl h
  | m + 1 => rw [decDigitsLE]; simp

theorem natChars_ne_nil (n : Nat) : natChars n ≠ [] := by
  unfold natChars
  split
  · simp
  · rename_i h
    simp [decDigitsLE_ne_nil h]

theorem decVal_natChars (n : Nat) : decVal (natChars n) = n := by
  unfold natChars
  split
  · rename_i h; rw [h]; rfl
  · rw [decVal_reverse, valLE_decDigitsLE]

theorem isDigit_of_mem_natChars {n : Nat} {c : Char} (h : c ∈ natChars n) :
    c.isDigit = true := by
  unfold natChars at h
  split at h
  · simp at h; rw [h]; rfl
  · exact isDigit_of_mem_decDigitsLE (List.mem_reverse.mp h)

theorem dot_not_mem_of_digits {l : List Char} (h : ∀ c ∈ l, c.isDigit = true) :
    '.' ∉ l :=
  fun hm => absurd (h _ hm) (by decide)

/-- The fraction block of a remainder r < 10^18: nonempty, digits only,
at most 18 characters, and scaling its value back by the dropped
trailing zeros recovers r. -/
theorem fracChars_spec (r : Nat) (hr : r < 10 ^ 18) :
    fracChars r ≠ [] ∧ (∀ c ∈ fracChars r, c.isDigit = true) ∧
    (fracChars r).length ≤ 18 ∧
    decVal (fracChars r) * 10 ^ (18 - (fracChars r).length) = r := by
  have hlen := length_decDigitsLE_le r 18 hr
  set L := decDigitsLE r ++ List.replicate (18 - (decDigitsLE r).length) '0' with hL
  have hLlen : L.length = 18 := by
    rw [hL, List.length_append, List.length_replicate]
    omega
  have hLval : valLE L = r := by
    rw [hL, valLE_append_replicate_zero, valLE_decDigitsLE]
  have hLdig : ∀ c ∈ L, c.isDigit = true := by
    intro c hc
    rw [hL, List.mem_append] at hc
    rcases hc with hc | hc
    · exact isDigit_of_mem_decDigitsLE hc
    · rw [List.eq_of_mem_replicate hc]; rfl
  set u := L.dropWhile (fun c => c = '0') with hu
  have hule : u.length ≤ L.length := length_dropWhile_zero_le L
  have huval : valLE L = valLE u * 10 ^ (L.length - u.length) := valLE_dropWhile_zero L
  have hfc : fracChars r = if u = [] then ['0'] else u.reverse := by
    rw [fracChars]
  rw [hfc]
  by_cases hnil : u = []
  · rw [if_pos hnil]
    have hr0 : r = 0 := by
      rw [← hLval, huval, hnil]
      simp [valLE]
    refine ⟨by simp, ?_, by simp, ?_⟩
    · intro c hc; simp at hc; rw [hc]; rfl
    · rw [hr0]
      decide
  · rw [if_neg hnil]
    refine ⟨by simp [hnil], ?_, ?_, ?_⟩
    · intro c hc
      exact isDigit_of_mem_dropWhile_zero hLdig (List.mem_reverse.mp hc)
    · rw [List.length_reverse]; omega
    · rw [decVal_reverse, List.length_reverse, ← hLlen, ← huval, hLval]

/-- Round trip at the wei level: rendering any wei amount to a display
string and parsing it back is the identity. -/
theorem parseEther_formatEther (n : Nat) : parseEther (formatEther n) = some n := by
  have hr : n % 10 ^ 18 < 10 ^ 18 := Nat.mod_lt _ (by norm_num)
  obtain ⟨hfne, hfdig, hflen, hfval⟩ := fracChars_spec (n % 10 ^ 18) hr
  have hdata : (formatEther n).data =
      natChars (n / 10 ^ 18) ++ '.' :: fracChars (n % 10 ^ 18) := rfl
  have hne : (formatEther n).data ≠ [] := by
    rw [hdata]
    simp [natChars_ne_nil]
  have hall : (formatEther n).data.all (fun c => c.isDigit || c == '.') = true := by
    rw [hdata, List.all_eq_true]
    intro c hc
    rw [List.mem_append, List.mem_cons] at hc
    rcases hc with hc | hc | hc
    · simp [isDigit_of_mem_natChars hc]
    · rw [hc]; rfl
    · simp [hfdig c hc]
  have hsplit : splitOnChar '.' (formatEther n).data =
      [natChars (n / 10 ^ 18), fracChars (n % 10 ^ 18)] := by
    rw [hdata]
    exact splitOnChar_dot_pair
      (dot_not_mem_of_digits fun c hc => isDigit_of_mem_natChars hc)
      (dot_not_mem_of_digits hfdig)
  rw [parseEther]
  simp only [hne, hall, hsplit, if_neg, ite_false, not_true_eq_false]
  simp only [if_pos hflen, decVal_natChars, hfval]
  rw [Nat.mul_comm (n / 10 ^ 18) (10 ^ 18)]
  rw [Nat.div_add_mod]

/- ---------------------------------------------------------------------
Claims C3 and C4: amount conversion.
--------------------------------------------------------------------- -/

/-- Claim C3's conversion property, which holds of the conversion
requestSendTransaction actually performs (ethers parseEther, a
scaled-integer computation): for every decimal string with at most 18
fractional digits, the wei result equals exactly the mathematical value
of the string times 10^18.  (The legacy variant's float multiplication
violates this; see the C3 record.) -/
theorem requestSendTransaction_conversion_exact (s : String) (q : ℚ)
    (hq : specDecimalValue s = some q) (hf : fracDigitCount s ≤ 18) :
    ∃ n, parseEther s = some n ∧ (n : ℚ) = q * 10 ^ 18 := by
  rw [specDecimalValue] at hq
  rw [parseEther]
  by_cases h1 : s.data = []
  · rw [if_pos h1] at hq
    cases hq
  rw [if_neg h1] at hq ⊢
  by_cases h2 : (s.data.all fun c => c.isDigit || c == '.') = true
  · rw [if_neg (not_not_intro h2)] at hq ⊢
    rcases hsplit : splitOnChar '.' s.data with _ | ⟨w, _ | ⟨f, _ | _⟩⟩
    · rw [hsplit] at hq
      simp at hq
    · rw [hsplit] at hq
      refine ⟨decVal w * 10 ^ 18, rfl, ?_⟩
      have hqq : q = (decVal w : ℚ) := by
        simpa using hq.symm
      rw [hqq]
      push_cast
      ring
    · rw [hsplit] at hq
      have hflen : f.length ≤ 18 := by
        rw [fracDigitCount, hsplit] at hf
        exact hf
      refine ⟨decVal w * 10 ^ 18 + decVal f * 10 ^ (18 - f.length), ?_, ?_⟩
      · show (if f.length ≤ 18 then
            some (decVal w * 10 ^ 18 + decVal f * 10 ^ (18 - f.length)) else none) =
          some (decVal w * 10 ^ 18 + decVal f * 10 ^ (18 - f.length))
        rw [if_pos hflen]
      have hqq : q = (decVal w : ℚ) + (decVal f : ℚ) / 10 ^ f.length := by
        simpa using hq.symm
      have h10 : ((10 : ℚ)) ^ f.length ≠ 0 := by positivity
      have key : ((decVal f : ℚ)) * 10 ^ (18 - f.length) * 10 ^ f.length =
          (decVal f : ℚ) * 10 ^ 18 := by
        rw [mul_assoc, ← pow_add]
        congr 2
        omega
      have hdiv : (decVal f : ℚ) / 10 ^ f.length * 10 ^ 18 =
          (decVal f : ℚ) * 10 ^ (18 - f.length) := by
        rw [div_mul_eq_mul_div, div_eq_iff h10]
        exact key.symm
      rw [hqq, add_mul, hdiv]
      push_cast
      ring
    · rw [hsplit] at hq
      simp at hq
  · rw [if_pos h2] at hq
    cases hq

/-- Witness for requestSendTransaction_conversion_exact, at the input
on which the legacy float conversion goes wrong: the exact conversion
of "1.000000000000000001" is 10^18 + 1 wei, the value of the string
times 10^18. -/
theorem requestSendTransaction_conversion_exact_witness :
    specDecimalValue "1.000000000000000001" = some (1 + 1 / 10 ^ 18) ∧
    fracDigitCount "1.000000000000000001" ≤ 18 ∧
    ∃ n, parseEther "1.000000000000000001" = some n ∧
      (n : ℚ) = (1 + 1 / 10 ^ 18) * 10 ^ 18 := by
  have h1 : specDecimalValue "1.000000000000000001" =
      some ((decVal ['1'] : ℚ) +
        (decVal ['0', '0', '0', '0', '0', '0', '0', '0', '0', '0', '0', '0', '0', '0',
          '0', '0', '0', '1'] : ℚ) /
        10 ^ (['0', '0', '0', '0', '0', '0', '0', '0', '0', '0', '0', '0', '0', '0',
          '0', '0', '0', '1'] : List Char).length) := by
    rfl
  have hq : specDecimalValue "1.000000000000000001" = some (1 + 1 / 10 ^ 18) := by
    rw [h1,
      show decVal ['1'] = 1 from by decide,
      show decVal ['0', '0', '0', '0', '0', '0', '0', '0', '0', '0', '0', '0', '0',
        '0', '0', '0', '0', '1'] = 1 from by decide,
      show (['0', '0', '0', '0', '0', '0', '0', '0', '0', '0', '0', '0', '0', '0',
        '0', '0', '0', '1'] : List Char).length = 18 from by decide]
    norm_num
  have hf : fracDigitCount "1.000000000000000001" ≤ 18 := by decide
  exact ⟨hq, hf, requestSendTransaction_conversion_exact _ _ hq hf⟩

/-- Claim C4: converting a decimal string to integer base units and
rendering the result back yields a string that denotes exactly the
original value (the two strings parse to the same wei amount). -/
theorem amount_conversion_roundtrip (s : String) (w : Nat)
    (h : parseEther s = some w) :
    parseEther (formatEther w) = parseEther s := by
  rw [h, parseEther_formatEther]

/-- Witness for amount_conversion_roundtrip at the spec's own example:
"1.5" converts to 1500000000000000000 base units and back to a string
with that very value. -/
theorem amount_conversion_roundtrip_witness :
    parseEther "1.5" = some 1500000000000000000 ∧
    parseEther (formatEther 1500000000000000000) = parseEther "1.5" := by
  have h : parseEther "1.5" = some 1500000000000000000 := by decide
  exact ⟨h, amount_conversion_roundtrip "1.5" 1500000000000000000 h⟩
